import Mathlib

/-!
# Verification of the WebSocketStream client (ext/websocket/02_websocketstream.js)

Shallow embedding of the WebSocketStream state machine: the event pump
(`pull`), the close handshake (`close`), the constructor's settlement
paths, the early-close drain loop, and the readable-stream `start` hook.

JavaScript strings are modelled as Lean `String` (both are sequences of
unicode scalar values for USVStrings); the UTF-8 byte length used by
`TextEncoder().encode(reason).byteLength` is `String.utf8ByteSize`.
Machine integers do not occur: event kinds and close codes are small
natural numbers (webidl converts `code` with `unsigned short` semantics,
so the converted value lies in `[0, 65536)`), and wall-clock readings of
`new Date().getTime()` are modelled as `Int` so that the subtraction in
the timeout check behaves like JS number subtraction.

The transport is external (spec section 6): a run of the event pump is
parameterised by the list of inbound events the transport delivers and
by the list of successive `Date.getTime()` readings.
-/

/-- A JavaScript value, restricted to the shapes this module manipulates. -/
inductive JsVal where
  /-- `undefined` -/
  | undef
  /-- a string -/
  | str (s : String)
  /-- a `Uint8Array`, as its byte list -/
  | bytes (b : List Nat)
  /-- the object `{ code, reason }` built in the default (close) case of `pull` -/
  | closeInfoObj (code : Nat) (reason : JsVal)
  /-- `new Error(value)` -/
  | errorObj (v : JsVal)
  /-- `new DOMException(message, name)` -/
  | domException (message : String) (name : String)
deriving DecidableEq, Repr

/-- How a one-shot future was settled. -/
inductive Outcome where
  | resolved (v : JsVal)
  | rejected (e : JsVal)
deriving DecidableEq, Repr

/-- Modelled from the spec: the `Deferred` one-shot future imported from
`ext:deno_web/06_streams.js` is not part of the sources under
verification; the spec (section 9) describes it as "a one-shot
channel/future ... enforce single-resolution via a completion flag".
`state = none` is the pending state (`state === "pending"` in the JS
code); `state = some o` is the settled state (the JS `state` getter
reports `"fulfilled"` for any settled deferred). -/
structure Deferred where
  state : Option Outcome
deriving DecidableEq, Repr

/-- A pending deferred. -/
def Deferred.pending : Deferred := ⟨none⟩

/-- Settle attempt: a no-op when the deferred is already settled
(single-resolution via the completion flag). -/
def Deferred.settle (d : Deferred) (o : Outcome) : Deferred :=
  match d.state with
  | none => ⟨some o⟩
  | some _ => d

/-- Fold a sequence of settle attempts (resolve/reject calls reaching the
deferred in some order) over a deferred. -/
def Deferred.applySettles (d : Deferred) (os : List Outcome) : Deferred :=
  os.foldl Deferred.settle d

/-- The per-instance hidden state of a `WebSocketStream`:
`[_connection]`, `[_closed]`, `[_closeSent]` (pending, or fulfilled with
the recorded timestamp), and `[_earlyClose]`. -/
structure StreamState where
  connection : Deferred
  closed : Deferred
  closeSent : Option Int
  earlyClose : Bool
deriving DecidableEq, Repr

/-- An inbound transport event, as delivered by `op_ws_next_event`: the
pair `{0: kind, 1: value}`. Kinds: 0 text, 1 binary, 2 pong, 3 ping,
5 error, 6 closed, anything else is a close frame whose code is the kind
itself. -/
structure RawEvent where
  kind : Nat
  value : JsVal
deriving DecidableEq, Repr

/-- Observable side effects of a run, in program order. The
`closedTransition` / `connTransition` actions are instrumentation: one is
recorded exactly when the corresponding deferred actually moves from
pending to settled (an absorbed settle attempt on an already-settled
deferred records nothing). -/
inductive Act where
  /-- `controller.enqueue(value)` -/
  | enqueue (v : JsVal)
  /-- `controller.error(err)` -/
  | ctrlError (e : JsVal)
  /-- `op_ws_send(rid, { kind: "pong" })` -/
  | sendPong
  /-- `core.tryClose(this[_rid])` -/
  | tryCloseRid
  /-- `core.tryClose(cancelRid)` -/
  | tryCloseCancelRid
  /-- `core.close(cancelRid)` -/
  | closeCancelRid
  /-- the `[_closed]` deferred transitioned from pending to settled -/
  | closedTransition (o : Outcome)
  /-- the `[_connection]` deferred transitioned from pending to settled -/
  | connTransition (o : Outcome)
  /-- `op_ws_close(rid, code, reason)` -/
  | sendCloseFrame (code : Option Nat) (reason : String)
  /-- `controller.close()` in the readable's `start` cleanup -/
  | ctrlClose
  /-- `writableStreamClose(writable)` in the readable's `start` cleanup -/
  | closeWritable
deriving DecidableEq, Repr

/-- `this[_closed].resolve/reject(o)`: settle through the deferred's
completion flag, recording a `closedTransition` action when the state
actually changes. -/
def StreamState.settleClosed (st : StreamState) (o : Outcome) :
    StreamState × List Act :=
  match st.closed.state with
  | none => ({ st with closed := ⟨some o⟩ }, [Act.closedTransition o])
  | some _ => (st, [])

/-- `this[_connection].resolve/reject(o)`, instrumented like
`StreamState.settleClosed`. -/
def StreamState.settleConn (st : StreamState) (o : Outcome) :
    StreamState × List Act :=
  match st.connection.state with
  | none => ({ st with connection := ⟨some o⟩ }, [Act.connTransition o])
  | some _ => (st, [])

/-- The `switch (kind)` of `pull` for every kind except 3 (ping), which
recurses and is handled directly in `pullRun`:
case 0/1 enqueue; case 5 reject `closed` with `new Error(value)`, error
the controller, `tryClose`; case 2 nothing; case 6 resolve `closed` with
`undefined`, `tryClose`; default resolve `closed` with
`{ code: kind, reason: value }`, `tryClose`. -/
def stepSwitch (st : StreamState) (ev : RawEvent) : StreamState × List Act :=
  if ev.kind == 0 || ev.kind == 1 then
    (st, [Act.enqueue ev.value])
  else if ev.kind == 5 then
    let err := JsVal.errorObj ev.value
    let r := st.settleClosed (.rejected err)
    (r.1, r.2 ++ [Act.ctrlError err, Act.tryCloseRid])
  else if ev.kind == 2 then
    (st, [])
  else if ev.kind == 6 then
    let r := st.settleClosed (.resolved .undef)
    (r.1, r.2 ++ [Act.tryCloseRid])
  else
    let r := st.settleClosed (.resolved (.closeInfoObj ev.kind ev.value))
    (r.1, r.2 ++ [Act.tryCloseRid])

/-- `CLOSE_RESPONSE_TIMEOUT` (line 70). -/
def CLOSE_RESPONSE_TIMEOUT : Int := 5000

/-- Outcome of the post-switch check of `pull` (lines 295-308):
either the invocation returns (`ret`), or it loops (`loop`,
the `return pull(controller)` branch, which performs no action). -/
inductive CheckOut where
  | ret (st : StreamState) (acts : List Act) (clock : List Int)
  | loop (st : StreamState) (clock : List Int)
deriving DecidableEq, Repr

/-- The post-switch check of `pull` (lines 295-308): when `[_closeSent]`
is fulfilled (with timestamp `ts`) and `[_closed]` is pending, read
`new Date().getTime()` (the head of the clock list; `none` when the
clock is exhausted) and compare the elapsed time with
`CLOSE_RESPONSE_TIMEOUT`: within budget, loop; over budget,
force-resolve `[_closed]` with the current frame's event `value` and
`tryClose` the handle. In every other state the frame just returns. -/
def afterCheck (st : StreamState) (clock : List Int) (value : JsVal) :
    Option CheckOut :=
  match st.closeSent, st.closed.state with
  | some ts, none =>
    match clock with
    | [] => none
    | now :: ck =>
      if now - ts ≤ CLOSE_RESPONSE_TIMEOUT then
        some (.loop st ck)
      else
        let r := st.settleClosed (.resolved value)
        some (.ret r.1 (r.2 ++ [Act.tryCloseRid]) ck)
  | _, _ => some (.ret st [] clock)

/-- Result of running `pull`: final state, the actions performed in
order, the transport events not yet consumed, and the remaining clock. -/
structure PullResult where
  st : StreamState
  acts : List Act
  rest : List RawEvent
  clock : List Int
deriving DecidableEq, Repr

/-- One invocation of `pull` (lines 244-309), interpreted against the
list of events the transport will deliver and the list of successive
`Date.getTime()` readings. `fuel` bounds the nesting depth of `pull`
invocations (each self-call — the `await pull(controller)` of the ping
case and the `return pull(controller)` of the within-budget check —
consumes one unit); `none` means the run did not complete within the
given fuel, events, or clock readings. Kind 3 (ping) sends a pong and
recurses before the post-switch check runs in the outer frame with the
outer frame's `value`. -/
def pullRun (fuel : Nat) (st : StreamState) (events : List RawEvent)
    (clock : List Int) : Option PullResult :=
  match fuel, events with
  | 0, _ => none
  | _ + 1, [] => none
  | fuel + 1, ev :: rest =>
    if ev.kind == 3 then
      match pullRun fuel st rest clock with
      | none => none
      | some r1 =>
        match afterCheck r1.st r1.clock ev.value with
        | none => none
        | some (.ret st2 a2 ck2) =>
          some ⟨st2, Act.sendPong :: (r1.acts ++ a2), r1.rest, ck2⟩
        | some (.loop st2 ck2) =>
          match pullRun fuel st2 r1.rest ck2 with
          | none => none
          | some r3 =>
            some ⟨r3.st, Act.sendPong :: (r1.acts ++ r3.acts), r3.rest, r3.clock⟩
    else
      match afterCheck (stepSwitch st ev).1 clock ev.value with
      | none => none
      | some (.ret st2 a2 ck2) => some ⟨st2, (stepSwitch st ev).2 ++ a2, rest, ck2⟩
      | some (.loop st2 ck2) =>
        match pullRun fuel st2 rest ck2 with
        | none => none
        | some r3 => some ⟨r3.st, (stepSwitch st ev).2 ++ r3.acts, r3.rest, r3.clock⟩

/-- A close request after webidl conversion: `code` is an optional
`unsigned short` (so in `[0, 65536)` when present), `reason` a USVString
defaulting to `""`. -/
structure WsCloseInfo where
  code : Option Nat
  reason : String
deriving DecidableEq, Repr

/-- The close-code guard of `close` (lines 388-397): throws exactly when
`closeInfo.code` is truthy (present and nonzero) and not 1000 nor in
`[3000, 5000)`. -/
def closeCodeThrows (code : Option Nat) : Bool :=
  match code with
  | none => false
  | some c => c != 0 && !(c == 1000 || (decide (3000 ≤ c) && decide (c < 5000)))

/-- The close-reason guard of `close` (lines 399-408): throws exactly
when `closeInfo.reason` is truthy (nonempty) and its UTF-8 byte length
exceeds 123. -/
def closeReasonThrows (reason : String) : Bool :=
  reason != "" && decide (reason.utf8ByteSize > 123)

/-- Lines 410-413: `let code = closeInfo.code; if (closeInfo.reason &&
code === undefined) code = 1000;`. -/
def resolveCloseCode (info : WsCloseInfo) : Option Nat :=
  if info.reason != "" && info.code == none then some 1000 else info.code

/-- `WebSocketStream.close` (lines 381-431), after webidl conversion of
its argument. `Except.error e` models `throw e`, which happens before
any state change or transport call; on success the new state and the
transport actions are returned: while `[_connection]` is pending the
early-close flag is set, otherwise while `[_closed]` is pending an
`op_ws_close` frame is issued, otherwise nothing happens. -/
def wsClose (st : StreamState) (info : WsCloseInfo) :
    Except JsVal (StreamState × List Act) :=
  if closeCodeThrows info.code then
    .error (.domException
      "The close code must be either 1000 or in the range of 3000 to 4999."
      "InvalidAccessError")
  else if closeReasonThrows info.reason then
    .error (.domException
      "The close reason may not be longer than 123 bytes."
      "SyntaxError")
  else if st.connection.state = none then
    .ok ({ st with earlyClose := true }, [])
  else if st.closed.state = none then
    .ok (st, [Act.sendCloseFrame (resolveCloseCode info) info.reason])
  else
    .ok (st, [])

/-- The success continuation of the `op_ws_close` issued by `close`
(lines 420-424): a `setTimeout(.., 0)` callback resolving `[_closeSent]`
with the current `Date.getTime()` reading. -/
def closeFrameSent (st : StreamState) (now : Int) : StreamState :=
  match st.closeSent with
  | none => { st with closeSent := some now }
  | some _ => st

/-- The failure continuation of the `op_ws_close` issued by `close`
(lines 425-428): `this[_rid] && core.tryClose(this[_rid]);
this[_closed].reject(err)`. -/
def closeFrameFailed (st : StreamState) (ridSet : Bool) (err : JsVal) :
    StreamState × List Act :=
  let a0 : List Act := if ridSet then [Act.tryCloseRid] else []
  let r := st.settleClosed (.rejected err)
  (r.1, a0 ++ r.2)

/-- The `DOMException("Closed while connecting", "NetworkError")` built
on the early-close paths (lines 186-192 and 195-202). -/
def closedWhileConnectingError : JsVal :=
  .domException "Closed while connecting" "NetworkError"

/-- Lines 185-193 and 195-202: after an early close, once the close
frame has been sent and the drain loop has terminated (or the close/drain
failed), reject both `[_connection]` and `[_closed]` with the
`NetworkError "Closed while connecting"`. -/
def earlyCloseReject (st : StreamState) : StreamState × List Act :=
  let r1 := st.settleConn (.rejected closedWhileConnectingError)
  let r2 := r1.1.settleClosed (.rejected closedWhileConnectingError)
  (r2.1, r1.2 ++ r2.2)

/-- Lines 146-150: the abort signal is already aborted at construction
time: `core.close(cancelRid)` then reject both futures with
`options.signal.reason`. -/
def abortedAtConstruction (st : StreamState) (reason : JsVal) :
    StreamState × List Act :=
  let r1 := st.settleConn (.rejected reason)
  let r2 := r1.1.settleClosed (.rejected reason)
  (r2.1, Act.closeCancelRid :: (r1.2 ++ r2.2))

/-- Lines 353-362: the rejection handler of `op_ws_create`: when the
failure is the core `Interrupted` error the signal's reason is
propagated instead, otherwise the cancel handle is closed; then both
futures are rejected with the chosen error. -/
def connectErrorHandler (st : StreamState) (err : JsVal)
    (interrupted : Bool) (signalReason : JsVal) : StreamState × List Act :=
  let e := if interrupted then signalReason else err
  let a0 : List Act := if interrupted then [] else [Act.tryCloseCancelRid]
  let r1 := st.settleConn (.rejected e)
  let r2 := r1.1.settleClosed (.rejected e)
  (r2.1, a0 ++ r1.2 ++ r2.2)

/-- The early-close drain loop (lines 172-184): repeatedly await the
next event and break on `kind > 6` (a close frame). Its body performs no
other action: in particular pings drained here receive no pong reply.
Returns the actions performed (always `[]`) and the unconsumed events. -/
def drainRun (fuel : Nat) (events : List RawEvent) :
    Option (List Act × List RawEvent) :=
  match fuel, events with
  | 0, _ => none
  | _ + 1, [] => none
  | fuel + 1, ev :: rest =>
    if ev.kind > 6 then some ([], rest)
    else drainRun fuel rest

/-- The cleanup registered by the readable's `start` hook (lines
312-326): `PromisePrototypeThen(this.closed, onFulfilled)` with no
rejection handler, so the callback — `controller.close()` then
`writableStreamClose(writable)` — runs only when `closed` fulfills;
when `closed` rejects, neither stream is closed by this hook. -/
def startCleanup (o : Outcome) : List Act :=
  match o with
  | .resolved _ => [Act.ctrlClose, Act.closeWritable]
  | .rejected _ => []

/-- Count of actual pending-to-settled transitions of `[_closed]`
recorded in a trace. -/
def countClosedTrans (acts : List Act) : Nat :=
  acts.countP fun a => match a with | Act.closedTransition _ => true | _ => false

/-- 1 when `[_closed]` was pending in `a` and settled in `b`, else 0. -/
def closedInd (a b : StreamState) : Nat :=
  if a.closed.state = none ∧ b.closed.state ≠ none then 1 else 0

/-- Recogniser for the pong-send action. -/
def isSendPong (a : Act) : Bool :=
  match a with | Act.sendPong => true | _ => false

/-- Recogniser for the enqueue action. -/
def isEnqueue (a : Act) : Bool :=
  match a with | Act.enqueue _ => true | _ => false

/-- A ping event (kind 3). -/
def isPingEv (e : RawEvent) : Bool := e.kind == 3

/-- A message event (kind 0 or 1), the only kinds that enqueue. -/
def isMsgEv (e : RawEvent) : Bool := e.kind == 0 || e.kind == 1

/-- A state with an established connection, `[_closed]` pending, no
close sent: the normal open state. -/
def stOpen : StreamState :=
  ⟨⟨some (.resolved .undef)⟩, ⟨none⟩, none, false⟩

/-- A state in which a local close frame has been sent (timestamp 0
recorded in `[_closeSent]`) and `[_closed]` is still pending: the
CloseSent state of the spec. -/
def stCloseSent : StreamState :=
  ⟨⟨some (.resolved .undef)⟩, ⟨none⟩, some 0, false⟩

/-- A state still connecting with an early close requested. -/
def stConnecting : StreamState :=
  ⟨⟨none⟩, ⟨none⟩, none, true⟩

/-- `n` consecutive ping events followed by a terminal `closed` event. -/
def pingFlood (n : Nat) : List RawEvent :=
  List.replicate n ⟨3, JsVal.undef⟩ ++ [⟨6, JsVal.undef⟩]

/-- The bounded-call-depth property: some fixed depth budget suffices
for every ping flood. -/
def pullDepthBounded : Prop :=
  ∃ B : Nat, ∀ n : Nat, (pullRun B stOpen (pingFlood n) []).isSome

/-! ## Helper lemmas about the instrumented settle operations -/

theorem settleClosed_pending {st : StreamState} (h : st.closed.state = none)
    (o : Outcome) :
    st.settleClosed o = ({ st with closed := ⟨some o⟩ }, [Act.closedTransition o]) := by
  unfold StreamState.settleClosed
  rw [h]

theorem settleClosed_settled {st : StreamState} {x : Outcome}
    (h : st.closed.state = some x) (o : Outcome) :
    st.settleClosed o = (st, []) := by
  unfold StreamState.settleClosed
  rw [h]

theorem countClosedTrans_append (l1 l2 : List Act) :
    countClosedTrans (l1 ++ l2) = countClosedTrans l1 + countClosedTrans l2 := by
  simp [countClosedTrans, List.countP_append]

/-- Segment invariant of the event pump: over a segment of execution
from state `a` to state `b` with trace `acts`, the number of recorded
`[_closed]` transitions is exactly the pending-to-settled indicator, a
settled `[_closed]` is never altered, and the pump never touches
`[_closeSent]`. -/
def SegInv (a b : StreamState) (acts : List Act) : Prop :=
  countClosedTrans acts = closedInd a b ∧
  (a.closed.state ≠ none → b.closed = a.closed) ∧
  b.closeSent = a.closeSent

theorem segInv_nil (a : StreamState) : SegInv a a [] := by
  refine ⟨?_, fun _ => rfl, rfl⟩
  simp [countClosedTrans, closedInd]

theorem closedInd_comp {a b c : StreamState}
    (h1 : a.closed.state ≠ none → b.closed = a.closed)
    (h2 : b.closed.state ≠ none → c.closed = b.closed) :
    closedInd a c = closedInd a b + closedInd b c := by
  unfold closedInd
  by_cases ha : a.closed.state = none
  · by_cases hb : b.closed.state = none
    · by_cases hc : c.closed.state = none <;> simp [ha, hb, hc]
    · have hcb : c.closed = b.closed := h2 hb
      have hc : c.closed.state ≠ none := by rw [hcb]; exact hb
      simp [ha, hb, hc]
  · have hba : b.closed = a.closed := h1 ha
    have hb : b.closed.state ≠ none := by rw [hba]; exact ha
    have hcb : c.closed = b.closed := h2 hb
    have hc : c.closed.state ≠ none := by rw [hcb]; exact hb
    simp [ha, hb, hc]

theorem segInv_comp {a b c : StreamState} {l1 l2 : List Act}
    (h1 : SegInv a b l1) (h2 : SegInv b c l2) : SegInv a c (l1 ++ l2) := by
  obtain ⟨c1, p1, s1⟩ := h1
  obtain ⟨c2, p2, s2⟩ := h2
  refine ⟨?_, ?_, s2.trans s1⟩
  · rw [countClosedTrans_append, c1, c2, closedInd_comp p1 p2]
  · intro ha
    have hba := p1 ha
    have hb : b.closed.state ≠ none := by rw [hba]; exact ha
    rw [p2 hb, hba]

theorem segInv_settleClosed (st : StreamState) (o : Outcome) :
    SegInv st (st.settleClosed o).1 (st.settleClosed o).2 := by
  cases h : st.closed.state with
  | none =>
    rw [settleClosed_pending h]
    refine ⟨?_, fun hc => absurd h hc, rfl⟩
    simp [countClosedTrans, closedInd, h]
  | some x =>
    rw [settleClosed_settled h]
    exact segInv_nil st

/-- Appending actions that are not `closedTransition` preserves the
segment invariant. -/
theorem segInv_append_inert {a b : StreamState} {l1 l2 : List Act}
    (h : SegInv a b l1) (hz : countClosedTrans l2 = 0) :
    SegInv a b (l1 ++ l2) := by
  obtain ⟨c1, p1, s1⟩ := h
  exact ⟨by rw [countClosedTrans_append, c1, hz, Nat.add_zero], p1, s1⟩

theorem segInv_stepSwitch (st : StreamState) (ev : RawEvent) :
    SegInv st (stepSwitch st ev).1 (stepSwitch st ev).2 := by
  unfold stepSwitch
  by_cases h01 : (ev.kind == 0 || ev.kind == 1) = true
  · simp only [h01, if_true]
    refine ⟨?_, fun _ => rfl, rfl⟩
    simp [countClosedTrans, closedInd]
  · by_cases h5 : (ev.kind == 5) = true
    · simp only [h01, h5, if_false, if_true, Bool.false_eq_true]
      exact segInv_append_inert (segInv_settleClosed st _) (by simp [countClosedTrans])
    · by_cases h2 : (ev.kind == 2) = true
      · simp only [h01, h5, h2, if_false, if_true, Bool.false_eq_true]
        exact segInv_nil st
      · by_cases h6 : (ev.kind == 6) = true
        · simp only [h01, h5, h2, h6, if_false, if_true, Bool.false_eq_true]
          exact segInv_append_inert (segInv_settleClosed st _) (by simp [countClosedTrans])
        · simp only [h01, h5, h2, h6, if_false, Bool.false_eq_true]
          exact segInv_append_inert (segInv_settleClosed st _) (by simp [countClosedTrans])

theorem segInv_afterCheck_ret {st st2 : StreamState} {ck ck2 : List Int}
    {v : JsVal} {a2 : List Act}
    (h : afterCheck st ck v = some (.ret st2 a2 ck2)) : SegInv st st2 a2 := by
  unfold afterCheck at h
  cases hcs : st.closeSent with
  | none =>
    rw [hcs] at h
    cases hcl : st.closed.state <;>
      (rw [hcl] at h; injection h with h; injection h with h1 h2 h3;
       subst h1; subst h2; exact segInv_nil st)
  | some ts =>
    rw [hcs] at h
    cases hcl : st.closed.state with
    | none =>
      rw [hcl] at h
      cases ck with
      | nil => exact absurd h (by simp)
      | cons now ck' =>
        by_cases hb : now - ts ≤ CLOSE_RESPONSE_TIMEOUT
        · simp only [hb, if_true] at h
          exact absurd h (by simp)
        · simp only [hb, if_false] at h
          injection h with h
          injection h with h1 h2 h3
          subst h1; subst h2
          exact segInv_append_inert (segInv_settleClosed st _)
            (by simp [countClosedTrans])
    | some x =>
      rw [hcl] at h
      injection h with h
      injection h with h1 h2 h3
      subst h1; subst h2
      exact segInv_nil st

theorem segInv_inert_singleton (a : StreamState) (x : Act)
    (hz : countClosedTrans [x] = 0) : SegInv a a [x] := by
  refine ⟨?_, fun _ => rfl, rfl⟩
  rw [hz]
  simp [closedInd]

theorem segInv_cons_pong {a b : StreamState} {l : List Act}
    (h : SegInv a b l) : SegInv a b (Act.sendPong :: l) := by
  have hs := segInv_comp (segInv_inert_singleton a Act.sendPong
    (by simp [countClosedTrans])) h
  simpa using hs

theorem afterCheck_loop_eq {st st2 : StreamState} {ck ck2 : List Int} {v : JsVal}
    (h : afterCheck st ck v = some (.loop st2 ck2)) : st2 = st := by
  unfold afterCheck at h
  cases hcs : st.closeSent with
  | none =>
    rw [hcs] at h
    cases hcl : st.closed.state <;> (rw [hcl] at h; exact absurd h (by simp))
  | some ts =>
    rw [hcs] at h
    cases hcl : st.closed.state with
    | none =>
      rw [hcl] at h
      cases ck with
      | nil => exact absurd h (by simp)
      | cons now ck' =>
        by_cases hb : now - ts ≤ CLOSE_RESPONSE_TIMEOUT
        · simp only [hb, if_true] at h
          injection h with h
          injection h with h1 h2
          exact h1.symm
        · simp only [hb, if_false] at h
          exact absurd h (by simp)
    | some x =>
      rw [hcl] at h
      exact absurd h (by simp)

/-- The event pump maintains the segment invariant across a whole
invocation of `pull`. -/
theorem pullRun_segInv :
    ∀ (fuel : Nat) (st : StreamState) (evs : List RawEvent) (ck : List Int)
      (r : PullResult), pullRun fuel st evs ck = some r → SegInv st r.st r.acts := by
  intro fuel
  induction fuel with
  | zero =>
    intro st evs ck r h
    simp [pullRun] at h
  | succ n ih =>
    intro st evs ck r h
    cases evs with
    | nil => simp [pullRun] at h
    | cons ev rest =>
      rw [pullRun] at h
      by_cases hk : (ev.kind == 3) = true
      · rw [if_pos hk] at h
        split at h
        · exact absurd h (by simp)
        · rename_i r1 h1
          split at h
          · exact absurd h (by simp)
          · rename_i st2 a2 ck2 h2
            injection h with h
            subst h
            exact segInv_cons_pong
              (segInv_comp (ih st rest ck r1 h1) (segInv_afterCheck_ret h2))
          · rename_i st2 ck2 h2
            split at h
            · exact absurd h (by simp)
            · rename_i r3 h3
              injection h with h
              subst h
              have inv3 := ih st2 r1.rest ck2 r3 h3
              rw [afterCheck_loop_eq h2] at inv3
              exact segInv_cons_pong (segInv_comp (ih st rest ck r1 h1) inv3)
      · rw [if_neg hk] at h
        split at h
        · exact absurd h (by simp)
        · rename_i st2 a2 ck2 h2
          injection h with h
          subst h
          exact segInv_comp (segInv_stepSwitch st ev) (segInv_afterCheck_ret h2)
        · rename_i st2 ck2 h2
          split at h
          · exact absurd h (by simp)
          · rename_i r3 h3
            injection h with h
            subst h
            have inv3 := ih st2 rest ck2 r3 h3
            rw [afterCheck_loop_eq h2] at inv3
            exact segInv_comp (segInv_stepSwitch st ev) inv3

/-- A settled deferred absorbs every further settle attempt. -/
theorem applySettles_settled :
    ∀ (os : List Outcome) (d : Deferred), d.state ≠ none →
      Deferred.applySettles d os = d := by
  intro os
  induction os with
  | nil => intro d _; rfl
  | cons o os ih =>
    intro d h
    have hd : Deferred.settle d o = d := by
      unfold Deferred.settle
      cases hs : d.state with
      | none => exact absurd hs h
      | some x => rfl
    show Deferred.applySettles (Deferred.settle d o) os = d
    rw [hd]
    exact ih d h

/-- On a pending deferred the first settle attempt wins and all later
attempts are absorbed. -/
theorem applySettles_first (o : Outcome) (os : List Outcome) :
    (Deferred.pending.applySettles (o :: os)).state = some o := by
  show (Deferred.applySettles (Deferred.settle ⟨none⟩ o) os).state = some o
  have h1 : Deferred.settle ⟨none⟩ o = ⟨some o⟩ := rfl
  rw [h1, applySettles_settled os ⟨some o⟩ (by simp)]

/-- C1: the `connection` and `closed` futures each settle exactly once.
Over any completed run of the event pump, the number of recorded
pending-to-settled transitions of `[_closed]` is at most one — exactly
one when the run settles it, zero when it was already settled (a settled
deferred is never altered); and for any deferred (in particular
`[_connection]` and `[_closed]`), any sequence of settle attempts
arriving from the concurrent settlement paths (inbound error, terminal
close event, close-response timeout, connect failure) settles it with
the first attempt only: later attempts fall on a settled deferred and
are no-ops. -/
theorem connection_closed_settle_exactly_once :
    (∀ (fuel : Nat) (st : StreamState) (evs : List RawEvent) (ck : List Int)
        (r : PullResult), pullRun fuel st evs ck = some r →
        countClosedTrans r.acts ≤ 1 ∧
        (st.closed.state = none →
          countClosedTrans r.acts = if r.st.closed.state ≠ none then 1 else 0) ∧
        (st.closed.state ≠ none →
          countClosedTrans r.acts = 0 ∧ r.st.closed = st.closed)) ∧
    (∀ (d : Deferred) (os : List Outcome), d.state ≠ none →
        d.applySettles os = d) ∧
    (∀ (o : Outcome) (os : List Outcome),
        (Deferred.pending.applySettles (o :: os)).state = some o) := by
  refine ⟨?_, fun d os h => applySettles_settled os d h, applySettles_first⟩
  intro fuel st evs ck r h
  obtain ⟨hc, hp, _⟩ := pullRun_segInv fuel st evs ck r h
  refine ⟨?_, ?_, ?_⟩
  · rw [hc]; unfold closedInd; split <;> omega
  · intro hpend
    rw [hc]; unfold closedInd
    by_cases hs : r.st.closed.state = none <;> simp [hpend, hs]
  · intro hset
    refine ⟨?_, hp hset⟩
    rw [hc]; unfold closedInd
    simp [hset]

/-- Witness for C1 at a concrete input: a clean-close run settles
`[_closed]` (at most) once, and of two racing settle attempts on a
pending deferred the first wins. -/
theorem connection_closed_settle_exactly_once_witness :
    countClosedTrans [Act.closedTransition (Outcome.resolved JsVal.undef),
        Act.tryCloseRid] ≤ 1 ∧
    (Deferred.pending.applySettles [Outcome.resolved JsVal.undef,
        Outcome.rejected (JsVal.str "late")]).state
      = some (Outcome.resolved JsVal.undef) := by
  constructor
  · exact (connection_closed_settle_exactly_once.1 2 stOpen [⟨6, JsVal.undef⟩] []
      ⟨⟨⟨some (.resolved .undef)⟩, ⟨some (.resolved .undef)⟩, none, false⟩,
       [Act.closedTransition (Outcome.resolved JsVal.undef), Act.tryCloseRid],
       [], []⟩ (by decide)).1
  · exact connection_closed_settle_exactly_once.2.2 (Outcome.resolved JsVal.undef)
      [Outcome.rejected (JsVal.str "late")]

/-- C2 counterexample: the claim says every integer code other than 1000
and `[3000, 5000)` raises a ValidationError, but code 0 is falsy in
JavaScript, so the guard `closeInfo.code && ...` is skipped: `close({code: 0})`
passes validation and even sends a close frame carrying code 0. -/
theorem close_code_zero_passes :
    wsClose stOpen ⟨some 0, ""⟩ = .ok (stOpen, [Act.sendCloseFrame (some 0) ""]) ∧
    ¬(0 = 1000 ∨ (3000 ≤ 0 ∧ 0 < 5000)) := by
  exact ⟨rfl, by decide⟩

/-- C2 (amended): for every converted close code `c` (webidl `unsigned
short`, so `c < 65536`), `close({code: c})` passes close-code validation
iff `c = 0` (falsy, treated like an absent code) or `c = 1000` or
`3000 ≤ c < 5000`; when validation fails, `close` throws the
`InvalidAccessError` DOMException before any state change or transport
call (the `Except.error` return carries no successor state). -/
theorem close_code_validation (st : StreamState) (c : Nat) (hc : c < 65536) :
    (closeCodeThrows (some c) = false ↔
      (c = 0 ∨ c = 1000 ∨ (3000 ≤ c ∧ c < 5000))) ∧
    (closeCodeThrows (some c) = true →
      wsClose st ⟨some c, ""⟩ = .error (.domException
        "The close code must be either 1000 or in the range of 3000 to 4999."
        "InvalidAccessError")) := by
  constructor
  · simp only [closeCodeThrows, Bool.and_eq_false_iff, bne_eq_false_iff_eq,
      Bool.not_eq_false', Bool.or_eq_true, beq_iff_eq, Bool.and_eq_true,
      decide_eq_true_eq]
  · intro ht
    simp [wsClose, ht]

/-- Witness for C2 (amended) at concrete inputs: 4444 passes, 2999 fails
and throws. -/
theorem close_code_validation_witness :
    (closeCodeThrows (some 4444) = false ↔
      (4444 = 0 ∨ 4444 = 1000 ∨ (3000 ≤ 4444 ∧ 4444 < 5000))) ∧
    wsClose stOpen ⟨some 2999, ""⟩ = .error (.domException
      "The close code must be either 1000 or in the range of 3000 to 4999."
      "InvalidAccessError") :=
  ⟨(close_code_validation stOpen 4444 (by decide)).1,
   (close_code_validation stOpen 2999 (by decide)).2 (by decide)⟩

/-- C3 counterexample: in the CloseSent state (close frame sent,
`[_closed]` still pending) a second call to `close` is not a no-op: the
guard only tests `[_connection]` and `[_closed]`, never `[_closeSent]`,
so another `op_ws_close` frame is issued. -/
theorem close_in_closesent_resends :
    wsClose stCloseSent ⟨none, ""⟩ = .ok (stCloseSent, [Act.sendCloseFrame none ""]) ∧
    [Act.sendCloseFrame none ""] ≠ ([] : List Act) :=
  ⟨rfl, by decide⟩

/-- C3 (amended): a `close(info)` call with valid arguments made once
`[_closed]` has settled (the Closed and Errored states) is a no-op — no
transport frame, no state change; but in CloseSent (`[_closed]` still
pending) it sends another close frame, so repeated `close` is idempotent
only after `[_closed]` settles. -/
theorem close_noop_when_terminated (st : StreamState) (info : WsCloseInfo)
    (hconn : st.connection.state ≠ none)
    (hcode : closeCodeThrows info.code = false)
    (hreason : closeReasonThrows info.reason = false) :
    (st.closed.state ≠ none → wsClose st info = .ok (st, [])) ∧
    (st.closed.state = none →
      wsClose st info =
        .ok (st, [Act.sendCloseFrame (resolveCloseCode info) info.reason])) := by
  constructor <;> intro hcl <;> simp [wsClose, hcode, hreason, hconn, hcl]

/-- Witness for C3 (amended): with `[_closed]` settled, `close({code: 1000})`
does nothing; in the open state it sends the frame. -/
theorem close_noop_when_terminated_witness :
    wsClose ⟨⟨some (.resolved .undef)⟩, ⟨some (.resolved .undef)⟩, none, false⟩
        ⟨some 1000, ""⟩ =
      .ok (⟨⟨some (.resolved .undef)⟩, ⟨some (.resolved .undef)⟩, none, false⟩, []) ∧
    wsClose stOpen ⟨some 1000, ""⟩ =
      .ok (stOpen, [Act.sendCloseFrame (some 1000) ""]) :=
  ⟨(close_noop_when_terminated
      ⟨⟨some (.resolved .undef)⟩, ⟨some (.resolved .undef)⟩, none, false⟩
      ⟨some 1000, ""⟩ (by decide) (by decide) (by decide)).1 (by decide),
   (close_noop_when_terminated stOpen ⟨some 1000, ""⟩
      (by decide) (by decide) (by decide)).2 (by decide)⟩

/-- With no close frame sent, the post-switch check does nothing. -/
theorem afterCheck_noCloseSent {st : StreamState} (h : st.closeSent = none)
    (ck : List Int) (v : JsVal) : afterCheck st ck v = some (.ret st [] ck) := by
  unfold afterCheck
  rw [h]

/-- With `[_closed]` already settled, the post-switch check does nothing. -/
theorem afterCheck_settled {st : StreamState} {x : Outcome}
    (h : st.closed.state = some x) (ck : List Int) (v : JsVal) :
    afterCheck st ck v = some (.ret st [] ck) := by
  unfold afterCheck
  cases hcs : st.closeSent with
  | none => rfl
  | some ts => rw [h]

/-- The switch of `pull` on a pong event (kind 2) does nothing. -/
theorem stepSwitch_pong (st : StreamState) (v : JsVal) :
    stepSwitch st ⟨2, v⟩ = (st, []) := rfl

/-- C4: the close-response timeout policy. After a local close has been
sent (`[_closeSent]` fulfilled with timestamp `ts`) and while `[_closed]`
is still pending, the post-switch check of the event pump compares the
current `Date.getTime()` reading against the 5000 ms budget: within
budget (elapsed ≤ 5000, e.g. 4999) it loops for the next event inside
the same `pull` invocation and does not force-resolve; over budget it
force-resolves `[_closed]` with the current frame's event value and
releases the handle (`tryClose`). -/
theorem close_response_timeout_policy (st : StreamState) (ts now : Int)
    (v : JsVal) (ck : List Int)
    (hcs : st.closeSent = some ts) (hp : st.closed.state = none) :
    (now - ts ≤ 5000 → afterCheck st (now :: ck) v = some (.loop st ck)) ∧
    (now - ts > 5000 →
      afterCheck st (now :: ck) v =
        some (.ret { st with closed := ⟨some (.resolved v)⟩ }
          [Act.closedTransition (.resolved v), Act.tryCloseRid] ck)) ∧
    (∀ (fuel : Nat) (rest : List RawEvent) (r : PullResult), now - ts ≤ 5000 →
      pullRun fuel st rest ck = some r →
      pullRun (fuel + 1) st (⟨2, v⟩ :: rest) (now :: ck) = some r) := by
  have hac : afterCheck st (now :: ck) v =
      if now - ts ≤ CLOSE_RESPONSE_TIMEOUT then some (.loop st ck)
      else some (.ret (st.settleClosed (.resolved v)).1
        ((st.settleClosed (.resolved v)).2 ++ [Act.tryCloseRid]) ck) := by
    unfold afterCheck
    rw [hcs, hp]
  refine ⟨?_, ?_, ?_⟩
  · intro hb
    rw [hac, if_pos (show now - ts ≤ CLOSE_RESPONSE_TIMEOUT from hb)]
  · intro hb
    rw [hac, if_neg (show ¬(now - ts ≤ CLOSE_RESPONSE_TIMEOUT) from not_le.mpr hb),
        settleClosed_pending hp]
    rfl
  · intro fuel rest r hb hrun
    have hk : (((⟨2, v⟩ : RawEvent).kind == 3)) = false := rfl
    simp only [pullRun, hk, Bool.false_eq_true, if_false, stepSwitch_pong, hac,
      CLOSE_RESPONSE_TIMEOUT, hb, if_true, hrun, List.nil_append]

/-- Witness for C4 at concrete inputs: close sent at time 0; at 4999 ms
the check loops, at 5001 ms it force-resolves, and within budget a pong
is followed by the next event inside the same invocation. -/
theorem close_response_timeout_policy_witness :
    afterCheck stCloseSent [4999] JsVal.undef = some (.loop stCloseSent []) ∧
    afterCheck stCloseSent [5001] JsVal.undef =
      some (.ret { stCloseSent with closed := ⟨some (.resolved .undef)⟩ }
        [Act.closedTransition (.resolved .undef), Act.tryCloseRid] []) ∧
    pullRun 2 stCloseSent [⟨2, JsVal.undef⟩, ⟨6, JsVal.undef⟩] [4999] =
      some ⟨{ stCloseSent with closed := ⟨some (.resolved .undef)⟩ },
            [Act.closedTransition (.resolved .undef), Act.tryCloseRid], [], []⟩ := by
  have h4999 := close_response_timeout_policy stCloseSent 0 4999 JsVal.undef [] rfl rfl
  have h5001 := close_response_timeout_policy stCloseSent 0 5001 JsVal.undef [] rfl rfl
  exact ⟨h4999.1 (by decide), h5001.2.1 (by decide),
    h4999.2.2 1 [⟨6, JsVal.undef⟩]
      ⟨{ stCloseSent with closed := ⟨some (.resolved .undef)⟩ },
       [Act.closedTransition (.resolved .undef), Act.tryCloseRid], [], []⟩
      (by decide) (by decide)⟩

/-- C5 counterexample: the claim says exactly one of `connection` /
`closed` settles when cancellation precedes connect settlement; on the
early-close path (the path that produces the NetworkError
"Closed while connecting"), the code rejects both, so "exactly one" is
false. -/
theorem early_close_settles_both_not_one :
    ((earlyCloseReject stConnecting).1.connection.state ≠ none ∧
     (earlyCloseReject stConnecting).1.closed.state ≠ none) ∧
    ¬(((earlyCloseReject stConnecting).1.connection.state ≠ none ∧
        (earlyCloseReject stConnecting).1.closed.state = none) ∨
      ((earlyCloseReject stConnecting).1.connection.state = none ∧
        (earlyCloseReject stConnecting).1.closed.state ≠ none)) := by
  decide

/-- C5 (amended): when cancellation is signaled before the connect
attempt settles, both `connection` and `closed` settle, each exactly
once, with the same rejection reason: the NetworkError
"Closed while connecting" on the early-close path, the abort signal's
reason on the already-aborted and interrupted-connect paths (and the
connect failure itself otherwise) — never with differing results, and
never neither. -/
theorem cancellation_rejects_both (st : StreamState)
    (hc : st.connection.state = none) (hcl : st.closed.state = none) :
    ((earlyCloseReject st).1.connection.state =
        some (.rejected closedWhileConnectingError) ∧
     (earlyCloseReject st).1.closed.state =
        some (.rejected closedWhileConnectingError)) ∧
    (∀ reason,
      (abortedAtConstruction st reason).1.connection.state =
          some (.rejected reason) ∧
      (abortedAtConstruction st reason).1.closed.state =
          some (.rejected reason)) ∧
    (∀ err interrupted signalReason,
      (connectErrorHandler st err interrupted signalReason).1.connection.state =
          some (.rejected (if interrupted then signalReason else err)) ∧
      (connectErrorHandler st err interrupted signalReason).1.closed.state =
          some (.rejected (if interrupted then signalReason else err))) := by
  refine ⟨?_, fun reason => ?_, fun err interrupted signalReason => ?_⟩
  · simp [earlyCloseReject, StreamState.settleConn, StreamState.settleClosed, hc, hcl]
  · simp [abortedAtConstruction, StreamState.settleConn, StreamState.settleClosed,
      hc, hcl]
  · simp [connectErrorHandler, StreamState.settleConn, StreamState.settleClosed,
      hc, hcl]

/-- Witness for C5 (amended) at the concrete connecting state. -/
theorem cancellation_rejects_both_witness :
    (earlyCloseReject stConnecting).1.connection.state =
        some (.rejected closedWhileConnectingError) ∧
    (earlyCloseReject stConnecting).1.closed.state =
        some (.rejected closedWhileConnectingError) ∧
    (abortedAtConstruction stConnecting (JsVal.str "aborted")).1.closed.state =
        some (.rejected (JsVal.str "aborted")) := by
  have h := cancellation_rejects_both stConnecting rfl rfl
  exact ⟨h.1.1, h.1.2, (h.2.1 (JsVal.str "aborted")).2⟩

/-- C6 counterexample: the claim says a pong makes the pump continue the
loop and fetch the next event within the same `pull` invocation; with no
local close sent, the invocation returns right after the pong and the
next available event is left unconsumed. -/
theorem pong_does_not_continue :
    pullRun 5 stOpen [⟨2, JsVal.undef⟩, ⟨0, JsVal.str "hello"⟩] [] =
      some ⟨stOpen, [], [⟨0, JsVal.str "hello"⟩], []⟩ ∧
    ([⟨0, JsVal.str "hello"⟩] : List RawEvent) ≠ [] := by
  exact ⟨rfl, by decide⟩

/-- C6 (amended): a pong event (kind 2) enqueues no inbound stream item;
unless a local close has been sent while `[_closed]` is pending, the
`pull` invocation returns immediately after the pong — performing no
action and leaving the remaining events for later invocations — rather
than continuing the loop within the same invocation (the continuation
happens only in the close-sent-within-budget case). -/
theorem pong_no_item_no_continuation (st : StreamState) (v : JsVal)
    (rest : List RawEvent) (ck : List Int) (fuel : Nat)
    (hcs : st.closeSent = none ∨ st.closed.state ≠ none) :
    pullRun (fuel + 1) st (⟨2, v⟩ :: rest) ck = some ⟨st, [], rest, ck⟩ := by
  have hk : (((⟨2, v⟩ : RawEvent).kind == 3)) = false := rfl
  rcases hcs with hcs | hcl
  · simp only [pullRun, hk, Bool.false_eq_true, if_false, stepSwitch_pong,
      afterCheck_noCloseSent hcs, List.nil_append]
  · cases hx : st.closed.state with
    | none => exact absurd hx hcl
    | some x =>
      simp only [pullRun, hk, Bool.false_eq_true, if_false, stepSwitch_pong,
        afterCheck_settled hx, List.nil_append]

/-- Witness for C6 (amended) at a concrete input. -/
theorem pong_no_item_no_continuation_witness :
    pullRun 4 stOpen [⟨2, JsVal.undef⟩, ⟨6, JsVal.undef⟩] [] =
      some ⟨stOpen, [], [⟨6, JsVal.undef⟩], []⟩ :=
  pong_no_item_no_continuation stOpen JsVal.undef [⟨6, JsVal.undef⟩] [] 3
    (Or.inl rfl)

/-- Settling `[_closed]` records neither a pong send nor an enqueue. -/
theorem settleClosed_no_pong_enqueue (st : StreamState) (o : Outcome) :
    (st.settleClosed o).2.countP isSendPong = 0 ∧
    (st.settleClosed o).2.countP isEnqueue = 0 := by
  cases h : st.closed.state with
  | none =>
    rw [settleClosed_pending h]
    simp [isSendPong, isEnqueue, List.countP_cons]
  | some x =>
    rw [settleClosed_settled h]
    simp

/-- The switch of `pull` sends no pong (pongs are sent only by the ping
case handled in `pullRun`) and enqueues exactly one item iff the event
is a message event (kind 0 or 1). -/
theorem stepSwitch_counts (st : StreamState) (ev : RawEvent) :
    (stepSwitch st ev).2.countP isSendPong = 0 ∧
    (stepSwitch st ev).2.countP isEnqueue = (if isMsgEv ev then 1 else 0) := by
  unfold stepSwitch
  by_cases h01 : (ev.kind == 0 || ev.kind == 1) = true
  · rw [if_pos h01]
    constructor
    · simp [isSendPong, List.countP_cons]
    · rw [if_pos (show isMsgEv ev = true from h01)]
      simp [isEnqueue, List.countP_cons]
  · rw [if_neg h01, if_neg (show ¬(isMsgEv ev = true) from h01)]
    by_cases h5 : (ev.kind == 5) = true
    · rw [if_pos h5]
      cases hcl : st.closed.state with
      | none =>
        simp [settleClosed_pending hcl, isSendPong, isEnqueue,
          List.countP_cons, List.countP_append]
      | some x =>
        simp [settleClosed_settled hcl, isSendPong, isEnqueue,
          List.countP_cons, List.countP_append]
    · rw [if_neg h5]
      by_cases h2 : (ev.kind == 2) = true
      · rw [if_pos h2]
        simp
      · rw [if_neg h2]
        by_cases h6 : (ev.kind == 6) = true
        · rw [if_pos h6]
          cases hcl : st.closed.state with
          | none =>
            simp [settleClosed_pending hcl, isSendPong, isEnqueue,
              List.countP_cons, List.countP_append]
          | some x =>
            simp [settleClosed_settled hcl, isSendPong, isEnqueue,
              List.countP_cons, List.countP_append]
        · rw [if_neg h6]
          cases hcl : st.closed.state with
          | none =>
            simp [settleClosed_pending hcl, isSendPong, isEnqueue,
              List.countP_cons, List.countP_append]
          | some x =>
            simp [settleClosed_settled hcl, isSendPong, isEnqueue,
              List.countP_cons, List.countP_append]

/-- The post-switch check records neither a pong send nor an enqueue. -/
theorem afterCheck_ret_counts {st st2 : StreamState} {ck ck2 : List Int}
    {v : JsVal} {a2 : List Act}
    (h : afterCheck st ck v = some (.ret st2 a2 ck2)) :
    a2.countP isSendPong = 0 ∧ a2.countP isEnqueue = 0 := by
  unfold afterCheck at h
  cases hcs : st.closeSent with
  | none =>
    rw [hcs] at h
    cases hcl : st.closed.state <;>
      (rw [hcl] at h; injection h with h; injection h with h1 h2 h3;
       subst h2; simp)
  | some ts =>
    rw [hcs] at h
    cases hcl : st.closed.state with
    | none =>
      rw [hcl] at h
      cases ck with
      | nil => exact absurd h (by simp)
      | cons now ck' =>
        by_cases hb : now - ts ≤ CLOSE_RESPONSE_TIMEOUT
        · simp only [hb, if_true] at h
          exact absurd h (by simp)
        · simp only [hb, if_false] at h
          injection h with h
          injection h with h1 h2 h3
          subst h2
          rw [List.countP_append, List.countP_append,
            (settleClosed_no_pong_enqueue st _).1,
            (settleClosed_no_pong_enqueue st _).2]
          simp [isSendPong, isEnqueue, List.countP_cons]
    | some x =>
      rw [hcl] at h
      injection h with h
      injection h with h1 h2 h3
      subst h2
      simp

/-- Over a completed `pull` invocation the consumed prefix of the event
list determines the trace counts: one pong send per consumed ping, one
enqueued item per consumed message event. -/
theorem pullRun_counts :
    ∀ (fuel : Nat) (st : StreamState) (evs : List RawEvent) (ck : List Int)
      (r : PullResult), pullRun fuel st evs ck = some r →
      ∃ C, evs = C ++ r.rest ∧
        r.acts.countP isSendPong = C.countP isPingEv ∧
        r.acts.countP isEnqueue = C.countP isMsgEv := by
  intro fuel
  induction fuel with
  | zero =>
    intro st evs ck r h
    simp [pullRun] at h
  | succ n ih =>
    intro st evs ck r h
    cases evs with
    | nil => simp [pullRun] at h
    | cons ev rest =>
      rw [pullRun] at h
      by_cases hk : (ev.kind == 3) = true
      · have hping : isPingEv ev = true := hk
        have hmsg : isMsgEv ev = false := by
          have h3 : ev.kind = 3 := by simpa using hk
          simp [isMsgEv, h3]
        rw [if_pos hk] at h
        split at h
        · exact absurd h (by simp)
        · rename_i r1 h1
          split at h
          · exact absurd h (by simp)
          · rename_i st2 a2 ck2 h2
            injection h with h
            subst h
            obtain ⟨C1, hC1, hp1, he1⟩ := ih st rest ck r1 h1
            obtain ⟨hap, hae⟩ := afterCheck_ret_counts h2
            refine ⟨ev :: C1, by simp [hC1], ?_, ?_⟩
            · simp [List.countP_cons, List.countP_append, hp1, hap,
                isSendPong, hping]
            · simp [List.countP_cons, List.countP_append, he1, hae,
                isEnqueue, hmsg, isSendPong]
          · rename_i st2 ck2 h2
            split at h
            · exact absurd h (by simp)
            · rename_i r3 h3
              injection h with h
              subst h
              obtain ⟨C1, hC1, hp1, he1⟩ := ih st rest ck r1 h1
              obtain ⟨C3, hC3, hp3, he3⟩ := ih st2 r1.rest ck2 r3 h3
              refine ⟨ev :: (C1 ++ C3), ?_, ?_, ?_⟩
              · simp [hC1, hC3]
              · simp [List.countP_cons, List.countP_append, hp1, hp3,
                  isSendPong, hping]
              · simp [List.countP_cons, List.countP_append, he1, he3,
                  isEnqueue, hmsg, isSendPong]
      · have hping : isPingEv ev = false := by
          simpa [isPingEv] using hk
        rw [if_neg hk] at h
        split at h
        · exact absurd h (by simp)
        · rename_i st2 a2 ck2 h2
          injection h with h
          subst h
          obtain ⟨hap, hae⟩ := afterCheck_ret_counts h2
          obtain ⟨hsp, hse⟩ := stepSwitch_counts st ev
          refine ⟨[ev], by simp, ?_, ?_⟩
          · simp [List.countP_cons, List.countP_append, hsp, hap, hping]
          · simp [List.countP_cons, List.countP_append, hse, hae]
        · rename_i st2 ck2 h2
          split at h
          · exact absurd h (by simp)
          · rename_i r3 h3
            injection h with h
            subst h
            obtain ⟨C3, hC3, hp3, he3⟩ := ih st2 rest ck2 r3 h3
            obtain ⟨hsp, hse⟩ := stepSwitch_counts st ev
            refine ⟨ev :: C3, by simp [hC3], ?_, ?_⟩
            · simp [List.countP_cons, List.countP_append, hsp, hp3, hping]
            · simp [List.countP_cons, List.countP_append, hse, he3]
              omega

/-- The body of the early-close drain loop performs no action at all. -/
theorem drainRun_no_acts :
    ∀ (fuel : Nat) (evs : List RawEvent) (acts : List Act)
      (rest : List RawEvent), drainRun fuel evs = some (acts, rest) → acts = [] := by
  intro fuel
  induction fuel with
  | zero =>
    intro evs acts rest h
    simp [drainRun] at h
  | succ n ih =>
    intro evs acts rest h
    cases evs with
    | nil => simp [drainRun] at h
    | cons ev r =>
      rw [drainRun] at h
      by_cases hgt : ev.kind > 6
      · rw [if_pos hgt] at h
        injection h with h
        injection h with h1 h2
        exact h1.symm
      · rw [if_neg hgt] at h
        exact ih r acts rest h

/-- C7 counterexample: the claim quantifies over every Ping received
from the transport, but pings consumed by the early-close drain loop
(the `while (true)` of the early-close branch) receive no pong reply:
a drain that consumes a ping and then a close frame performs no action,
so the pong count (0) differs from the ping count (1). -/
theorem ping_in_drain_gets_no_pong :
    drainRun 5 [⟨3, JsVal.undef⟩, ⟨7, JsVal.str "bye"⟩] = some ([], []) ∧
    ¬(([] : List Act).countP isSendPong =
      ([⟨3, JsVal.undef⟩, ⟨7, JsVal.str "bye"⟩] : List RawEvent).countP isPingEv) :=
  ⟨rfl, by decide⟩

/-- C7 (amended): every Ping event consumed by the event pump's `pull`
yields exactly one Pong reply, and a Ping never appears as an inbound
stream item (the pump enqueues exactly one item per consumed message
event, kinds 0 and 1, and nothing else); but Pings consumed by the
early-close drain loop are discarded without a Pong reply. -/
theorem ping_exactly_one_pong :
    (∀ (fuel : Nat) (st : StreamState) (evs : List RawEvent) (ck : List Int)
        (r : PullResult), pullRun fuel st evs ck = some r →
        r.acts.countP isSendPong =
          (evs.take (evs.length - r.rest.length)).countP isPingEv ∧
        r.acts.countP isEnqueue =
          (evs.take (evs.length - r.rest.length)).countP isMsgEv) ∧
    (∀ (fuel : Nat) (evs : List RawEvent) (acts : List Act)
        (rest : List RawEvent), drainRun fuel evs = some (acts, rest) →
        acts.countP isSendPong = 0) := by
  constructor
  · intro fuel st evs ck r h
    obtain ⟨C, hC, hp, he⟩ := pullRun_counts fuel st evs ck r h
    subst hC
    rw [show (C ++ r.rest).take ((C ++ r.rest).length - r.rest.length) = C by
      simp [List.length_append, Nat.add_sub_cancel, List.take_left]]
    exact ⟨hp, he⟩
  · intro fuel evs acts rest h
    rw [drainRun_no_acts fuel evs acts rest h]
    rfl

/-- Witness for C7 (amended) at a concrete input: a ping followed by a
text message yields one pong and one enqueued item. -/
theorem ping_exactly_one_pong_witness :
    (⟨stOpen, [Act.sendPong, Act.enqueue (JsVal.str "m")], [], []⟩
        : PullResult).acts.countP isSendPong =
      (([⟨3, JsVal.undef⟩, ⟨0, JsVal.str "m"⟩] : List RawEvent).take
        (([⟨3, JsVal.undef⟩, ⟨0, JsVal.str "m"⟩] : List RawEvent).length -
         (⟨stOpen, [Act.sendPong, Act.enqueue (JsVal.str "m")], [], []⟩
            : PullResult).rest.length)).countP isPingEv :=
  (ping_exactly_one_pong.1 3 stOpen [⟨3, JsVal.undef⟩, ⟨0, JsVal.str "m"⟩] []
    ⟨stOpen, [Act.sendPong, Act.enqueue (JsVal.str "m")], [], []⟩ (by decide)).1

/-- C8: for every reason whose UTF-8 byte length exceeds 123,
`close({reason: r})` throws the SyntaxError DOMException ("The close
reason may not be longer than 123 bytes") before the handshake starts
and before any state change (the `Except.error` return carries no
successor state and no transport action), and a subsequent `close` with
valid arguments on the same (unchanged) state still succeeds. -/
theorem close_reason_overlong_rejected (st : StreamState) (r : String)
    (hr : r.utf8ByteSize > 123) :
    wsClose st ⟨none, r⟩ = .error (.domException
      "The close reason may not be longer than 123 bytes." "SyntaxError") ∧
    (∀ info : WsCloseInfo, closeCodeThrows info.code = false →
      closeReasonThrows info.reason = false →
      ∃ out, wsClose st info = .ok out) := by
  constructor
  · have hne : r ≠ "" := by
      intro he
      rw [he] at hr
      exact absurd hr (by decide)
    have ht : closeReasonThrows r = true := by
      unfold closeReasonThrows
      simp only [Bool.and_eq_true, bne_iff_ne, ne_eq, decide_eq_true_eq]
      exact ⟨hne, hr⟩
    simp [wsClose, closeCodeThrows, ht]
  · intro info hcz hrz
    by_cases h1 : st.connection.state = none
    · exact ⟨({ st with earlyClose := true }, []),
        by simp [wsClose, hcz, hrz, h1]⟩
    · by_cases h2 : st.closed.state = none
      · exact ⟨(st, [Act.sendCloseFrame (resolveCloseCode info) info.reason]),
          by simp [wsClose, hcz, hrz, h1, h2]⟩
      · exact ⟨(st, []), by simp [wsClose, hcz, hrz, h1, h2]⟩

set_option maxRecDepth 8192

/-- Witness for C8 at a concrete input: a 124-byte reason is rejected
with the SyntaxError DOMException. -/
theorem close_reason_overlong_rejected_witness :
    wsClose stOpen ⟨none, String.mk (List.replicate 124 'a')⟩ =
      .error (.domException "The close reason may not be longer than 123 bytes."
        "SyntaxError") :=
  (close_reason_overlong_rejected stOpen (String.mk (List.replicate 124 'a'))
    (by decide)).1

/-- With fuel not exceeding the number of consecutive leading pings, a
`pull` invocation cannot complete: every ping consumes one level of
nested recursion. -/
theorem pullRun_pings_fuel_short :
    ∀ (fuel n : Nat) (st : StreamState) (rest : List RawEvent) (ck : List Int),
      fuel ≤ n →
      pullRun fuel st (List.replicate n ⟨3, JsVal.undef⟩ ++ rest) ck = none := by
  intro fuel
  induction fuel with
  | zero => intro n st rest ck hle; rfl
  | succ m ih =>
    intro n st rest ck hle
    cases n with
    | zero => omega
    | succ k =>
      rw [List.replicate_succ, List.cons_append, pullRun,
        if_pos (show (((⟨3, JsVal.undef⟩ : RawEvent).kind == 3)) = true from rfl),
        ih k st rest ck (by omega)]

/-- Fuel `n + 1` (nesting depth `n + 1`) suffices for `n` consecutive
pings followed by a terminal event. -/
theorem pullRun_pings_isSome :
    ∀ n : Nat, (pullRun (n + 1) stOpen (pingFlood n) []).isSome := by
  intro n
  induction n with
  | zero => decide
  | succ k ih =>
    obtain ⟨r1, hr1⟩ := Option.isSome_iff_exists.mp ih
    have hcs : r1.st.closeSent = none :=
      (pullRun_segInv (k + 1) stOpen (pingFlood k) [] r1 hr1).2.2
    unfold pingFlood
    rw [List.replicate_succ, List.cons_append, pullRun,
      if_pos (show (((⟨3, JsVal.undef⟩ : RawEvent).kind == 3)) = true from rfl)]
    unfold pingFlood at hr1
    rw [hr1]
    simp [afterCheck_noCloseSent hcs]

/-- C9 counterexample: the claim says a single `pull` invocation's call
depth stays bounded under arbitrarily long ping sequences; in the code
the ping case performs `await pull(controller)` — a recursive self-call —
so no fixed nesting-depth budget `B` completes every ping flood: depth
`B` already fails on `B` consecutive pings. -/
theorem pull_depth_unbounded : ¬ pullDepthBounded := by
  intro hb
  obtain ⟨B, hB⟩ := hb
  have h := hB B
  unfold pingFlood at h
  rw [pullRun_pings_fuel_short B B stOpen [⟨6, JsVal.undef⟩] [] (le_refl B)] at h
  simp at h

/-- C9 (amended): the event pump handles Ping by a recursive self-call
inside the same `pull` invocation, so the nesting depth grows linearly
with the number of consecutive pings: depth budget `n` is insufficient
for `n` consecutive pings while `n + 1` suffices — the call depth is
unbounded under an adversarial ping flood (and a Pong produces no
continuation at all within the invocation). -/
theorem ping_recursion_depth_linear (n : Nat) :
    pullRun n stOpen (pingFlood n) [] = none ∧
    (pullRun (n + 1) stOpen (pingFlood n) []).isSome := by
  constructor
  · unfold pingFlood
    exact pullRun_pings_fuel_short n n stOpen [⟨6, JsVal.undef⟩] [] (le_refl n)
  · exact pullRun_pings_isSome n

/-- C10 counterexample: the readable's `start` hook registers stream
cleanup with `PromisePrototypeThen(this.closed, onFulfilled)` — no
rejection handler — so when `closed` settles by rejection (here the
inbound error path, which does reject it), the hook never runs:
`writableStreamClose(writable)` is not invoked and the outbound stream
is not closed on that settlement path. -/
theorem closed_rejection_skips_stream_cleanup :
    pullRun 2 stOpen [⟨5, JsVal.str "boom"⟩] [] =
      some ⟨{ stOpen with closed := ⟨some (.rejected (.errorObj (.str "boom")))⟩ },
            [Act.closedTransition (.rejected (.errorObj (.str "boom"))),
             Act.ctrlError (.errorObj (.str "boom")), Act.tryCloseRid], [], []⟩ ∧
    startCleanup (.rejected (.errorObj (.str "boom"))) = [] ∧
    Act.closeWritable ∉ startCleanup (.rejected (.errorObj (.str "boom"))) :=
  ⟨rfl, rfl, by decide⟩

/-- C10 (amended): when `closed` resolves (fulfills), the `start` hook
closes the readable controller and then the writable stream; when
`closed` rejects, the hook performs nothing — in particular the writable
stream is not closed by it (on the inbound-error path the readable is
errored directly by the pump instead). -/
theorem cleanup_only_on_resolution :
    (∀ v, startCleanup (.resolved v) = [Act.ctrlClose, Act.closeWritable]) ∧
    (∀ e, startCleanup (.rejected e) = [] ∧
      Act.closeWritable ∉ startCleanup (.rejected e)) :=
  ⟨fun v => rfl, fun e => ⟨rfl, by simp [startCleanup]⟩⟩
